import Mathlib

/-
Verification of the `bootstrap_se` function of src/bootstrap.py against its
specification.  The embedding follows the source line by line:

* numpy floating-point values are modelled as `Option ℚ`: `none` is NaN
  (not-a-number), `some q` a finite value.  All arithmetic propagates NaN,
  in particular `0 * NaN = NaN`, exactly as IEEE numpy arithmetic does.
* Division by zero is modelled as NaN.  In this program a zero divisor can
  only meet a numerator that is `0` or NaN (the weighted terms vanish or a
  NaN propagates), and numpy yields NaN for `0/0` and `NaN/0`, so the model
  agrees with the code on every reachable state.
* `np.random` (an external black-box library, spec section 6) is modelled as
  a deterministic stream generated by a linear congruential generator; the
  global generator state is threaded explicitly so that reseeding and
  consumption of random numbers are observable.
* The final square root taken by `.std()` is abstracted as a parameter
  `sqrtF : ℚ → R` (e.g. `Real.sqrt` after coercion); no claim depends on
  the numeric value of a square root, only on NaN-ness and on equalities
  obtained by congruence, and this keeps every definition executable.
* Python values relevant to the claims are modelled structurally: `x` may be
  a plain list (1D or nested), a numpy array (1, 2 or 3 dimensional) or a
  pandas DataFrame with column labels; `n_reps` may be an int, a bool
  (a subclass of int in Python) or a float.
-/

namespace Bootstrap

/-- A numpy floating-point value: `none` is NaN, `some q` a finite value. -/
abbrev F := Option ℚ

/-- numpy addition: NaN propagates. -/
def fadd : F → F → F
  | some a, some b => some (a + b)
  | _, _ => none

/-- numpy subtraction: NaN propagates. -/
def fsub : F → F → F
  | some a, some b => some (a - b)
  | _, _ => none

/-- numpy multiplication: NaN propagates; note `0 * NaN = NaN`. -/
def fmul : F → F → F
  | some a, some b => some (a * b)
  | _, _ => none

/-- numpy division: NaN propagates, and a zero divisor yields NaN (in this
program a zero divisor only occurs with a numerator that is `0` or NaN, where
numpy also produces NaN). -/
def fdiv : F → F → F
  | some a, some b => if b = 0 then none else some (a / b)
  | _, _ => none

/-- numpy `sum` of a vector: NaN propagates. -/
def fsum (l : List F) : F := l.foldr fadd (some 0)

/-- Step of the deterministic pseudo-random stream standing in for numpy's
global generator (an external black box per spec section 6): a 64-bit linear
congruential generator. -/
def lcg (s : ℕ) : ℕ := (6364136223846793005 * s + 1442695040888963407) % 2 ^ 64

/-- Models `np.random.seed(seed)`: the generator state is reset to a value
determined by `seed` alone (numpy reduces the seed modulo 2^32). -/
def seedState (seed : ℤ) : ℕ := (seed % 2 ^ 32).toNat

/-- Draw `m` uniform category indices in `[0, n)` from the stream, returning
the drawn indices and the advanced generator state. -/
def drawIdxs (n : ℕ) : ℕ → ℕ → List ℕ × ℕ
  | 0, s => ([], s)
  | m + 1, s =>
    let s1 := lcg s
    let rest := drawIdxs n m s1
    ((s1 % n) :: rest.1, rest.2)

/-- One row of `np.random.multinomial(n, [1/n, ..., 1/n])`: `n` trials over
`n` equally likely categories, returned as the count of each category. -/
def multinomialRow (n : ℕ) (s : ℕ) : List ℕ × ℕ :=
  let d := drawIdxs n n s
  ((List.range n).map (fun i => d.1.count i), d.2)

/-- Models `np.random.multinomial(n=n, pvals=ones(n)/n, size=reps)`: `reps`
independent multinomial rows, threading the generator state. -/
def multinomialRows (n : ℕ) : ℕ → ℕ → List (List ℕ) × ℕ
  | 0, s => ([], s)
  | m + 1, s =>
    let row := multinomialRow n s
    let rest := multinomialRows n m row.2
    (row.1 :: rest.1, rest.2)

/-- The Python value passed as `n_reps`: an int, a bool (in Python a bool is
an instance of int) or a float. -/
inductive PyNum where
  | int : ℤ → PyNum
  | bool : Bool → PyNum
  | float : ℚ → PyNum
deriving DecidableEq

/-- Python `isinstance(v, int)`: true for ints and for bools (bool is a
subclass of int), false for floats. -/
def PyNum.isInt : PyNum → Bool
  | .int _ => true
  | .bool _ => true
  | .float _ => false

/-- The integer value of `n_reps` as used after validation; `True` counts as
1 and `False` as 0.  Floats are rejected by validation before any use, so
the float case is never consulted. -/
def PyNum.toZ : PyNum → ℤ
  | .int z => z
  | .bool b => if b then 1 else 0
  | .float _ => 0

/-- The value passed as `x`: a plain Python list (1D or nested 2D), a numpy
array of dimension 1, 2 or 3, or a pandas DataFrame carrying column labels. -/
inductive XInput where
  | list1 : List F → XInput
  | list2 : List (List F) → XInput
  | arr1 : List F → XInput
  | arr2 : List (List F) → XInput
  | arr3 : List (List (List F)) → XInput
  | frame : List String → List (List F) → XInput

/-- The value passed as `wts` when not `None`: a 1D or a 2D array. -/
inductive WInput where
  | w1 : List F → WInput
  | w2 : List (List F) → WInput

/-- Python `len(np.asanyarray(x))`: the extent of the first axis. -/
def XInput.pyLen : XInput → ℕ
  | .list1 l | .arr1 l => l.length
  | .list2 m | .arr2 m => m.length
  | .frame _ m => m.length
  | .arr3 m => m.length

/-- The value of `np.asanyarray(x).ndim` (nested lists are assumed rectangular, as ragged
inputs are outside every claim). -/
def XInput.ndim : XInput → ℕ
  | .list1 _ | .arr1 _ => 1
  | .list2 _ | .arr2 _ | .frame _ _ => 2
  | .arr3 _ => 3

/-- The matrix `temp_x` after the reshape of lines 65-66: a 1D input becomes a single
column; 2D inputs are unchanged.  A 3D input never reaches the reshape
(rejected by the dimension check), so its value here is irrelevant. -/
def XInput.mat2 : XInput → List (List F)
  | .list1 l | .arr1 l => l.map (fun a => [a])
  | .list2 m | .arr2 m => m
  | .frame _ m => m
  | .arr3 _ => []

/-- The value of `len(np.asanyarray(wts))`, with the `wts is None` default of line 47-48:
`ones(len(temp_x))` has the length of `x`. -/
def wtsLen (x : XInput) : Option WInput → ℕ
  | none => x.pyLen
  | some (.w1 l) => l.length
  | some (.w2 m) => m.length

/-- The value of `np.asanyarray(wts).ndim`, with the all-ones default counting as 1D. -/
def wtsNdim : Option WInput → ℕ
  | none => 1
  | some (.w1 _) => 1
  | some (.w2 _) => 2

/-- The weight vector actually used in the computation: the all-ones default
or the supplied 1D array.  A 2D `wts` is rejected by validation before use. -/
def wtsVec (x : XInput) : Option WInput → List F
  | none => List.replicate x.pyLen (some 1)
  | some (.w1 l) => l
  | some (.w2 _) => []

/-- The errors `bootstrap_se` can raise: the four validation failures of
lines 50-62, plus the AttributeError raised at line 84 when `x.ndim` is
accessed on a plain Python list (which has no `ndim` attribute). -/
inductive BootErr where
  | lengthMismatch
  | xNdim
  | wtsNdim
  | nRepsNotPosInt
  | attrNoNdim
deriving DecidableEq

/-- The validation errors are the four raised by lines 50-62; the
AttributeError of line 84 is not one of them. -/
def BootErr.isValidation : BootErr → Bool
  | .attrNoNdim => false
  | _ => true

/-- The value returned by `bootstrap_se`: a scalar for 1D array input, a
labelled Series for DataFrame input, a bare array otherwise. -/
inductive Output (R : Type) where
  | scalar : Option R → Output R
  | arr : List (Option R) → Output R
  | series : List String → List (Option R) → Output R
deriving DecidableEq

instance {ε α : Type} [DecidableEq ε] [DecidableEq α] : DecidableEq (Except ε α) := fun a b =>
  match a, b with
  | .ok x, .ok y => decidable_of_iff (x = y) (by simp)
  | .ok _, .error _ => .isFalse (by simp)
  | .error _, .ok _ => .isFalse (by simp)
  | .error x, .error y => decidable_of_iff (x = y) (by simp)

/-- True exactly when the result is `ok`. -/
def okB {ε α : Type} : Except ε α → Bool
  | .ok _ => true
  | .error _ => false

/-- Line 76: the numerator of one resample row,
`(sample_freqs * (temp_wts * col)).sum(1)` restricted to row `frow`:
the sum over observations of `F[r,i] * (wts[i] * x[i,c])`.  Note that a NaN
entry of `col` makes the whole sum NaN even where `F[r,i] = 0`. -/
def rowNum (w col : List F) (frow : List ℕ) : F :=
  fsum (List.zipWith (fun fi wx => fmul (some (fi : ℚ)) wx) frow (List.zipWith fmul w col))

/-- The mask `~np.isnan(col)` cast to float: 1 for a present entry, 0 for NaN. -/
def present (a : F) : F := if a.isSome then some 1 else some 0

/-- Line 77: the denominator of one resample row,
`(sample_freqs * (temp_wts * ~isnan(col))).sum(1)` restricted to row `frow`. -/
def rowDen (w col : List F) (frow : List ℕ) : F :=
  fsum (List.zipWith (fun fi wp => fmul (some (fi : ℚ)) wp) frow
    (List.zipWith fmul w (col.map present)))

/-- Lines 76-78 before the `.std()`: the vector, indexed by resample, of
weighted resample means of column `col`. -/
def colMeans (freqs : List (List ℕ)) (w col : List F) : List F :=
  freqs.map (fun frow => fdiv (rowNum w col frow) (rowDen w col frow))

/-- numpy `mean`: the sum divided by the length (NaN on an empty vector). -/
def fmean (l : List F) : F := fdiv (fsum l) (some (l.length : ℚ))

/-- numpy `var` with its default `ddof = 0`: the mean of the squared
deviations from the mean. -/
def npVar (l : List F) : F :=
  let m := fmean l
  fmean (l.map (fun a => fmul (fsub a m) (fsub a m)))

/-- numpy `.std()` with its default `ddof = 0`: the square root of `npVar`,
the square root being the abstracted `sqrtF`. -/
def npStd {R : Type} (sqrtF : ℚ → R) (l : List F) : Option R :=
  (npVar l).map sqrtF

/-- Lines 74-80: the per-column standard errors, one for each column of the
transpose of `temp_x`. -/
def seList {R : Type} (sqrtF : ℚ → R) (freqs : List (List ℕ)) (w : List F)
    (tx : List (List F)) : List (Option R) :=
  tx.transpose.map (fun col => npStd sqrtF (colMeans freqs w col))

/-- Modelled from the spec (step 5a): the numerator of one resample row with
missing entries contributing 0 to the sum, `Σ_i F[r,i] * wts[i] * x[i,c]`
where a missing `x[i,c]` counts as 0.  This is the comparison definition for
the refinement claims; the code's own numerator is `rowNum`. -/
def spec_num (w col : List F) (frow : List ℕ) : F :=
  fsum (List.zipWith (fun fi wx => fmul (some (fi : ℚ)) wx) frow
    (List.zipWith fmul w (col.map (fun a => some (a.getD 0)))))

/-- Modelled from the spec (step 5b): the weighted count of present
observations, `Σ_i F[r,i] * wts[i] * (1 if x[i,c] is present else 0)`. -/
def spec_den (w col : List F) (frow : List ℕ) : F :=
  fsum (List.zipWith (fun fi wp => fmul (some (fi : ℚ)) wp) frow
    (List.zipWith fmul w (col.map present)))

/-- Modelled from the spec (step 5c): `mean_r = numerator[r] / denominator[r]`. -/
def spec_mean (w col : List F) (frow : List ℕ) : F :=
  fdiv (spec_num w col frow) (spec_den w col frow)

/-- Modelled from the spec (step 5c): the per-resample weighted means
`{mean_r : r in 0..n_reps-1}` of one column. -/
def spec_col_means (freqs : List (List ℕ)) (w col : List F) : List F :=
  freqs.map (spec_mean w col)

/-- Modelled from the spec (step 5d): the divide-by-n (population, ddof = 0)
standard deviation across the resample means — the square root of the sum of
squared deviations from the mean divided by the number of means. -/
def spec_std {R : Type} (sqrtF : ℚ → R) (means : List F) : Option R :=
  let m := fdiv (fsum means) (some (means.length : ℚ))
  (fdiv (fsum (means.map (fun a => fmul (fsub a m) (fsub a m))))
    (some (means.length : ℚ))).map sqrtF

/-- Structural well-formedness of `x` as the claims assume it: nonempty,
rectangular, and of a dimension numpy accepts for this function (a 3D array
is never well-formed input). -/
def XInput.wellFormedB : XInput → Bool
  | .list1 l | .arr1 l => !l.isEmpty
  | .list2 m | .arr2 m => !m.isEmpty && m.all (fun r => r.length == (m.headD []).length)
  | .frame labels m => !m.isEmpty && m.all (fun r => r.length == labels.length)
  | .arr3 _ => false

/-- Whether `x` is of a kind whose final assembly branch (lines 82-87) does not
raise: a numpy array or a DataFrame, not a plain Python list. -/
def XInput.assembleOk : XInput → Bool
  | .arr1 _ | .arr2 _ | .frame _ _ => true
  | _ => false

/-- A valid `wts` argument: absent, or a 1D vector of real (non-NaN) weights
of the same length as `x`. -/
def wtsOkB (x : XInput) : Option WInput → Bool
  | none => true
  | some (.w1 l) => (l.length == x.pyLen) && l.all (fun a => a.isSome)
  | some (.w2 _) => false

/-- The whole of `bootstrap_se` (src/bootstrap.py lines 19-87), as a function
of the inputs and of the incoming global pseudo-random generator state,
returning the result (or the raised error) together with the outgoing
generator state.  Validation failures return before `np.random.seed`, so
they leave the state untouched. -/
def bootstrap_se {R : Type} (sqrtF : ℚ → R) (x : XInput) (wts : Option WInput)
    (n_reps : PyNum) (seed : ℤ) (st : ℕ) : Except BootErr (Output R) × ℕ :=
  if x.pyLen ≠ wtsLen x wts then (.error .lengthMismatch, st)
  else if ¬ (x.ndim = 1 ∨ x.ndim = 2) then (.error .xNdim, st)
  else if wtsNdim wts ≠ 1 then (.error .wtsNdim, st)
  else if ¬ n_reps.isInt = true ∨ n_reps.toZ ≤ 0 then (.error .nRepsNotPosInt, st)
  else
    let n := x.pyLen
    let w := wtsVec x wts
    let fr := multinomialRows n n_reps.toZ.toNat (seedState seed)
    let se := seList sqrtF fr.1 w x.mat2
    match x with
    | .frame labels _ => (.ok (.series labels se), fr.2)
    | .arr1 _ => (.ok (.scalar (se.headD none)), fr.2)
    | .arr2 _ | .arr3 _ => (.ok (.arr se), fr.2)
    | .list1 _ | .list2 _ => (.error .attrNoNdim, fr.2)

/-! ### NaN propagation -/

theorem fadd_none_right (a : F) : fadd a none = none := by cases a <;> rfl

theorem fsum_eq_none_of_mem {l : List F} (h : none ∈ l) : fsum l = none := by
  induction l with
  | nil => cases h
  | cons a t ih =>
    rcases List.mem_cons.mp h with h1 | h2
    · subst h1; rfl
    · show fadd a (fsum t) = none
      rw [ih h2, fadd_none_right]

theorem fdiv_zero (a : F) : fdiv a (some 0) = none := by cases a <;> simp [fdiv]

theorem fmean_eq_none_of_mem {l : List F} (h : none ∈ l) : fmean l = none := by
  rw [fmean, fsum_eq_none_of_mem h]; rfl

theorem npVar_eq_none_of_mem {l : List F} (h : none ∈ l) : npVar l = none := by
  have hm : none ∈ l.map (fun a => fmul (fsub a (fmean l)) (fsub a (fmean l))) := by
    rcases List.mem_map.mpr ⟨none, h, rfl⟩ with hx
    simpa [fsub, fmul] using hx
  rw [npVar]
  exact fmean_eq_none_of_mem hm

theorem npStd_eq_none_of_mem {R : Type} (sqrtF : ℚ → R) {l : List F} (h : none ∈ l) :
    npStd sqrtF l = none := by
  rw [npStd, npVar_eq_none_of_mem h]; rfl

/-! ### The multinomial frequency matrix -/

theorem sum_map_add {α : Type} (l : List α) (f g : α → ℕ) :
    (l.map (fun i => f i + g i)).sum = (l.map f).sum + (l.map g).sum := by
  induction l with
  | nil => rfl
  | cons x xs ih => simp [List.map_cons, List.sum_cons, ih]; omega

theorem sum_range_indicator (a : ℕ) : ∀ n : ℕ,
    ((List.range n).map (fun i => if i = a then 1 else 0)).sum = if a < n then 1 else 0 := by
  intro n
  induction n with
  | zero => simp
  | succ n ih =>
    rw [List.range_succ, List.map_append, List.sum_append, ih]
    simp only [List.map_cons, List.map_nil, List.sum_cons, List.sum_nil]
    split_ifs <;> omega

theorem sum_range_map_count (n : ℕ) (l : List ℕ) (h : ∀ a ∈ l, a < n) :
    ((List.range n).map (fun i => l.count i)).sum = l.length := by
  induction l with
  | nil => simp
  | cons a t ih =>
    have ha : a < n := h a (by simp)
    have ht : ∀ b ∈ t, b < n := fun b hb => h b (by simp [hb])
    have hc : ∀ i : ℕ, (a :: t).count i = t.count i + if i = a then 1 else 0 := by
      intro i
      by_cases hia : i = a
      · subst hia; simp [List.count_cons_self]
      · simp [List.count_cons_of_ne hia, hia]
    calc ((List.range n).map (fun i => (a :: t).count i)).sum
        = ((List.range n).map (fun i => t.count i + if i = a then 1 else 0)).sum := by
          simp only [hc]
      _ = ((List.range n).map (fun i => t.count i)).sum
            + ((List.range n).map (fun i => if i = a then 1 else 0)).sum :=
          sum_map_add _ _ _
      _ = t.length + 1 := by rw [ih ht, sum_range_indicator a n, if_pos ha]
      _ = (a :: t).length := by simp

theorem drawIdxs_succ (n k s : ℕ) :
    drawIdxs n (k + 1) s
      = ((lcg s % n) :: (drawIdxs n k (lcg s)).1, (drawIdxs n k (lcg s)).2) := rfl

theorem drawIdxs_length (n : ℕ) : ∀ m s : ℕ, (drawIdxs n m s).1.length = m := by
  intro m
  induction m with
  | zero => intro s; rfl
  | succ k ih => intro s; rw [drawIdxs_succ]; simp [ih]

theorem drawIdxs_lt (n : ℕ) (hn : 0 < n) :
    ∀ m s a : ℕ, a ∈ (drawIdxs n m s).1 → a < n := by
  intro m
  induction m with
  | zero => intro s a ha; cases ha
  | succ k ih =>
    intro s a ha
    rw [drawIdxs_succ] at ha
    rcases List.mem_cons.mp ha with h1 | h2
    · rw [h1]; exact Nat.mod_lt (lcg s) hn
    · exact ih (lcg s) a h2

theorem multinomialRow_fst (n s : ℕ) :
    (multinomialRow n s).1 = (List.range n).map (fun i => (drawIdxs n n s).1.count i) := rfl

theorem multinomialRow_length (n s : ℕ) : (multinomialRow n s).1.length = n := by
  rw [multinomialRow_fst]; simp

theorem multinomialRow_sum (n s : ℕ) (hn : 0 < n) : (multinomialRow n s).1.sum = n := by
  rw [multinomialRow_fst,
    sum_range_map_count n _ (fun a ha => drawIdxs_lt n hn n s a ha),
    drawIdxs_length]

theorem multinomialRows_succ (n m s : ℕ) :
    multinomialRows n (m + 1) s
      = ((multinomialRow n s).1 :: (multinomialRows n m (multinomialRow n s).2).1,
         (multinomialRows n m (multinomialRow n s).2).2) := rfl

theorem multinomialRows_length (n : ℕ) : ∀ m s : ℕ, (multinomialRows n m s).1.length = m := by
  intro m
  induction m with
  | zero => intro s; rfl
  | succ k ih => intro s; rw [multinomialRows_succ]; simp [ih]

theorem multinomialRows_mem (n : ℕ) (hn : 0 < n) :
    ∀ m s : ℕ, ∀ row ∈ (multinomialRows n m s).1, row.length = n ∧ row.sum = n := by
  intro m
  induction m with
  | zero => intro s row hr; cases hr
  | succ k ih =>
    intro s row hr
    rw [multinomialRows_succ] at hr
    rcases List.mem_cons.mp hr with h1 | h2
    · subst h1; exact ⟨multinomialRow_length n s, multinomialRow_sum n s hn⟩
    · exact ih _ row h2

/-! ### Refinement: the code's per-resample quantities against the spec's -/

theorem map_getD_eq_self {col : List F} (h : col.all Option.isSome = true) :
    col.map (fun a => some (a.getD 0)) = col := by
  induction col with
  | nil => rfl
  | cons a t ih =>
    simp only [List.all_cons, Bool.and_eq_true] at h
    cases a with
    | none => cases h.1
    | some q => simp [ih h.2]

theorem rowNum_eq_spec_num {col : List F} (w : List F) (frow : List ℕ)
    (h : col.all Option.isSome = true) : rowNum w col frow = spec_num w col frow := by
  rw [spec_num, map_getD_eq_self h, rowNum]

theorem rowDen_eq_spec_den (w col : List F) (frow : List ℕ) :
    rowDen w col frow = spec_den w col frow := rfl

theorem colMeans_eq_spec_col_means {col : List F} (freqs : List (List ℕ)) (w : List F)
    (h : col.all Option.isSome = true) :
    colMeans freqs w col = spec_col_means freqs w col := by
  rw [colMeans, spec_col_means]
  apply List.map_congr_left
  intro frow _
  rw [spec_mean, ← rowNum_eq_spec_num w frow h, ← rowDen_eq_spec_den]

theorem npStd_eq_spec_std {R : Type} (sqrtF : ℚ → R) (l : List F) :
    npStd sqrtF l = spec_std sqrtF l := by
  simp only [npStd, spec_std, npVar, fmean, List.length_map]

/-! ### Reduction of `bootstrap_se` on validated inputs -/

theorem wellFormed_ndim {x : XInput} (hx : x.wellFormedB = true) :
    x.ndim = 1 ∨ x.ndim = 2 := by
  cases x <;> simp_all [XInput.wellFormedB, XInput.ndim]

theorem wtsOk_len {x : XInput} {wts : Option WInput} (hw : wtsOkB x wts = true) :
    x.pyLen = wtsLen x wts := by
  cases wts with
  | none => rfl
  | some w =>
    cases w with
    | w1 l =>
      simp only [wtsOkB, Bool.and_eq_true, beq_iff_eq] at hw
      simpa [wtsLen] using hw.1.symm
    | w2 m => cases hw

theorem wtsOk_ndim {x : XInput} {wts : Option WInput} (hw : wtsOkB x wts = true) :
    wtsNdim wts = 1 := by
  cases wts with
  | none => rfl
  | some w => cases w with
    | w1 l => rfl
    | w2 m => cases hw

theorem bootstrap_se_ok {R : Type} (sqrtF : ℚ → R) (x : XInput) (wts : Option WInput)
    (v : PyNum) (seed : ℤ) (st : ℕ)
    (h1 : x.pyLen = wtsLen x wts) (h2 : x.ndim = 1 ∨ x.ndim = 2) (h3 : wtsNdim wts = 1)
    (h4i : v.isInt = true) (h4p : 0 < v.toZ) (ha : x.assembleOk = true) :
    okB (bootstrap_se sqrtF x wts v seed st).1 = true := by
  unfold bootstrap_se
  rw [if_neg (by simp [h1]), if_neg (not_not_intro h2), if_neg (by simp [h3]),
    if_neg (by push_neg; exact ⟨h4i, h4p⟩)]
  cases x <;> first | rfl | simp [XInput.assembleOk] at ha

theorem bootstrap_se_nreps_err {R : Type} (sqrtF : ℚ → R) (x : XInput) (wts : Option WInput)
    (v : PyNum) (seed : ℤ) (st : ℕ)
    (h1 : x.pyLen = wtsLen x wts) (h2 : x.ndim = 1 ∨ x.ndim = 2) (h3 : wtsNdim wts = 1)
    (h4 : ¬(v.isInt = true ∧ 0 < v.toZ)) :
    bootstrap_se sqrtF x wts v seed st = (.error .nRepsNotPosInt, st) := by
  unfold bootstrap_se
  rw [if_neg (by simp [h1]), if_neg (not_not_intro h2), if_neg (by simp [h3]), if_pos ?hc]
  case hc =>
    by_cases hi : v.isInt = true
    · exact Or.inr (le_of_not_lt fun hp => h4 ⟨hi, hp⟩)
    · exact Or.inl hi

theorem bootstrap_se_frame_eq {R : Type} (sqrtF : ℚ → R) (labels : List String)
    (rows : List (List F)) (wts : Option WInput) (v : PyNum) (seed : ℤ) (st : ℕ)
    (h1 : (XInput.frame labels rows).pyLen = wtsLen (.frame labels rows) wts)
    (h3 : wtsNdim wts = 1) (h4i : v.isInt = true) (h4p : 0 < v.toZ) :
    bootstrap_se sqrtF (.frame labels rows) wts v seed st
      = (.ok (.series labels (seList sqrtF
            (multinomialRows rows.length v.toZ.toNat (seedState seed)).1
            (wtsVec (.frame labels rows) wts) rows)),
         (multinomialRows rows.length v.toZ.toNat (seedState seed)).2) := by
  unfold bootstrap_se
  rw [if_neg (by simp [h1]), if_neg (by simp [XInput.ndim]), if_neg (by simp [h3]),
    if_neg (by push_neg; exact ⟨h4i, h4p⟩)]
  rfl

/-! ### The claims -/

/-- C3: for every input (x, wts, n_reps, seed), the result of `bootstrap_se`
is a deterministic function of its arguments alone: it does not depend on
the ambient pseudo-random generator state, because the generator is reseeded
from `seed` before any draw.  Hence two calls with identical arguments
return bit-identical results. -/
theorem c3_deterministic {R : Type} (sqrtF : ℚ → R) (x : XInput) (wts : Option WInput)
    (n_reps : PyNum) (seed : ℤ) (st st' : ℕ) :
    (bootstrap_se sqrtF x wts n_reps seed st).1
      = (bootstrap_se sqrtF x wts n_reps seed st').1 := by
  unfold bootstrap_se
  by_cases h1 : x.pyLen ≠ wtsLen x wts
  · rw [if_pos h1, if_pos h1]
  · rw [if_neg h1, if_neg h1]
    by_cases h2 : ¬(x.ndim = 1 ∨ x.ndim = 2)
    · rw [if_pos h2, if_pos h2]
    · rw [if_neg h2, if_neg h2]
      by_cases h3 : wtsNdim wts ≠ 1
      · rw [if_pos h3, if_pos h3]
      · rw [if_neg h3, if_neg h3]
        by_cases h4 : ¬n_reps.isInt = true ∨ n_reps.toZ ≤ 0
        · rw [if_pos h4, if_pos h4]
        · rw [if_neg h4, if_neg h4]

/-- C7: whenever `bootstrap_se` raises one of the four validation errors
(length mismatch, x not 1- or 2-dimensional, wts not 1-dimensional, n_reps
not a positive integer), the global pseudo-random generator state is
returned unchanged: no reseeding and no draw happened, and no partial
result is produced. -/
theorem c7_validation_before_sampling {R : Type} (sqrtF : ℚ → R) (x : XInput)
    (wts : Option WInput) (v : PyNum) (seed : ℤ) (st : ℕ) (e : BootErr)
    (he : (bootstrap_se sqrtF x wts v seed st).1 = .error e)
    (hv : e.isValidation = true) :
    (bootstrap_se sqrtF x wts v seed st).2 = st := by
  unfold bootstrap_se at he ⊢
  by_cases h1 : x.pyLen ≠ wtsLen x wts
  · rw [if_pos h1]
  · rw [if_neg h1] at he ⊢
    by_cases h2 : ¬(x.ndim = 1 ∨ x.ndim = 2)
    · rw [if_pos h2]
    · rw [if_neg h2] at he ⊢
      by_cases h3 : wtsNdim wts ≠ 1
      · rw [if_pos h3]
      · rw [if_neg h3] at he ⊢
        by_cases h4 : ¬v.isInt = true ∨ v.toZ ≤ 0
        · rw [if_pos h4]
        · rw [if_neg h4] at he ⊢
          cases x <;>
            · have he2 : BootErr.attrNoNdim = e := by simpa using he
              subst he2
              simp [BootErr.isValidation] at hv

/-- C7 witness: a concrete length mismatch leaves the generator state (7)
untouched. -/
theorem c7_validation_before_sampling_witness :
    ((bootstrap_se (fun q : ℚ => q) (.arr1 [some 1])
          (some (.w1 [some 1, some 1])) (.int 1) 0 7).1 = .error .lengthMismatch
        ∧ BootErr.lengthMismatch.isValidation = true)
    ∧ (bootstrap_se (fun q : ℚ => q) (.arr1 [some 1])
          (some (.w1 [some 1, some 1])) (.int 1) 0 7).2 = 7 :=
  ⟨⟨by decide, by decide⟩,
    c7_validation_before_sampling (fun q : ℚ => q) (.arr1 [some 1])
      (some (.w1 [some 1, some 1])) (.int 1) 0 7 .lengthMismatch (by decide) (by decide)⟩

/-- C8: for every seed, replicate count and observation count n > 0, the
resample frequency matrix has n_reps rows, every row has n entries (each a
natural number, hence non-negative), and every row sums exactly to n. -/
theorem c8_freq_matrix_shape (seed : ℤ) (reps n : ℕ) (hn : 0 < n) :
    (multinomialRows n reps (seedState seed)).1.length = reps
    ∧ ∀ row ∈ (multinomialRows n reps (seedState seed)).1,
        row.length = n ∧ row.sum = n :=
  ⟨multinomialRows_length n reps _, multinomialRows_mem n hn reps _⟩

/-- C8 witness: the concrete matrix for seed 0, 2 replicates, 3 observations. -/
theorem c8_freq_matrix_shape_witness :
    0 < 3
    ∧ ((multinomialRows 3 2 (seedState 0)).1.length = 2
        ∧ ∀ row ∈ (multinomialRows 3 2 (seedState 0)).1,
            row.length = 3 ∧ row.sum = 3) :=
  ⟨by decide, c8_freq_matrix_shape 0 2 3 (by decide)⟩

/-- C10: Python accepts the boolean `True` as `n_reps` because `bool` is a
subclass of `int`, so `isinstance(True, int)` holds and `True > 0`;
`bootstrap_se` then behaves exactly as with `n_reps = 1`, and succeeds on
otherwise-valid input instead of raising. -/
theorem c10_bool_true_is_one {R : Type} (sqrtF : ℚ → R) (x : XInput)
    (wts : Option WInput) (seed : ℤ) (st : ℕ)
    (hx : x.wellFormedB = true) (ha : x.assembleOk = true) (hw : wtsOkB x wts = true) :
    bootstrap_se sqrtF x wts (.bool true) seed st
      = bootstrap_se sqrtF x wts (.int 1) seed st
    ∧ okB (bootstrap_se sqrtF x wts (.bool true) seed st).1 = true :=
  ⟨rfl,
    bootstrap_se_ok sqrtF x wts (.bool true) seed st (wtsOk_len hw) (wellFormed_ndim hx)
      (wtsOk_ndim hw) rfl (by decide) ha⟩

/-- C10 witness: `bootstrap_se` on `[1, 2]` with `n_reps = True` equals the
run with `n_reps = 1` and succeeds. -/
theorem c10_bool_true_is_one_witness :
    ((XInput.arr1 [some 1, some 2]).wellFormedB = true
        ∧ (XInput.arr1 [some 1, some 2]).assembleOk = true
        ∧ wtsOkB (.arr1 [some 1, some 2]) none = true)
    ∧ (bootstrap_se (fun q : ℚ => q) (.arr1 [some 1, some 2]) none (.bool true) 0 0
        = bootstrap_se (fun q : ℚ => q) (.arr1 [some 1, some 2]) none (.int 1) 0 0
      ∧ okB (bootstrap_se (fun q : ℚ => q) (.arr1 [some 1, some 2]) none
          (.bool true) 0 0).1 = true) :=
  ⟨⟨by decide, by decide, by decide⟩,
    c10_bool_true_is_one (fun q : ℚ => q) (.arr1 [some 1, some 2]) none 0 0
      (by decide) (by decide) (by decide)⟩

/-- C5: for every valid DataFrame input, `bootstrap_se` returns a Series
whose labels are exactly the column labels of `x`, in the same order. -/
theorem c5_labels_preserved {R : Type} (sqrtF : ℚ → R) (labels : List String)
    (rows : List (List F)) (wts : Option WInput) (v : PyNum) (seed : ℤ) (st : ℕ)
    (hw : wtsOkB (.frame labels rows) wts = true)
    (hvi : v.isInt = true) (hvp : 0 < v.toZ) :
    ∃ se, (bootstrap_se sqrtF (.frame labels rows) wts v seed st).1
      = .ok (.series labels se) := by
  refine ⟨seList sqrtF (multinomialRows rows.length v.toZ.toNat (seedState seed)).1
    (wtsVec (.frame labels rows) wts) rows, ?_⟩
  rw [bootstrap_se_frame_eq sqrtF labels rows wts v seed st (wtsOk_len hw)
    (wtsOk_ndim hw) hvi hvp]

/-- C5 witness: a concrete two-column DataFrame keeps its labels. -/
theorem c5_labels_preserved_witness :
    (wtsOkB (.frame ["a", "b"] [[some 1, some 10], [some 2, some 20]]) none = true
        ∧ PyNum.isInt (.int 1) = true ∧ 0 < PyNum.toZ (.int 1))
    ∧ ∃ se, (bootstrap_se (fun q : ℚ => q)
        (.frame ["a", "b"] [[some 1, some 10], [some 2, some 20]]) none (.int 1) 0 0).1
      = .ok (.series ["a", "b"] se) :=
  ⟨⟨by decide, by decide, by decide⟩,
    c5_labels_preserved (fun q : ℚ => q) ["a", "b"]
      [[some 1, some 10], [some 2, some 20]] none (.int 1) 0 0
      (by decide) (by decide) (by decide)⟩

/-- C6: on otherwise-valid input, `bootstrap_se` fails — with exactly the
n_reps validation error — if and only if `n_reps` is not a positive integer
in Python's sense (`isinstance(n_reps, int)` with a positive value; note
that a `bool` is a Python `int`).  In particular it fails for 0, -1 and 2.5
and succeeds for 1 and 10000. -/
theorem c6_nreps_validation {R : Type} (sqrtF : ℚ → R) (x : XInput)
    (wts : Option WInput) (v : PyNum) (seed : ℤ) (st : ℕ)
    (hx : x.wellFormedB = true) (ha : x.assembleOk = true) (hw : wtsOkB x wts = true) :
    ((bootstrap_se sqrtF x wts v seed st).1 = .error .nRepsNotPosInt
        ↔ ¬(v.isInt = true ∧ 0 < v.toZ))
    ∧ (okB (bootstrap_se sqrtF x wts v seed st).1 = true
        ↔ (v.isInt = true ∧ 0 < v.toZ)) := by
  by_cases hv : v.isInt = true ∧ 0 < v.toZ
  · have hok := bootstrap_se_ok sqrtF x wts v seed st (wtsOk_len hw)
      (wellFormed_ndim hx) (wtsOk_ndim hw) hv.1 hv.2 ha
    constructor
    · constructor
      · intro herr
        rw [herr] at hok
        cases hok
      · intro hno
        exact absurd hv hno
    · exact ⟨fun _ => hv, fun _ => hok⟩
  · have herr := bootstrap_se_nreps_err sqrtF x wts v seed st (wtsOk_len hw)
      (wellFormed_ndim hx) (wtsOk_ndim hw) hv
    constructor
    · constructor
      · intro _
        exact hv
      · intro _
        rw [herr]
    · constructor
      · intro hok
        rw [herr] at hok
        cases hok
      · intro hvv
        exact absurd hvv hv
/-- C6 witness: with valid `x = [1, 2]` and default weights, `n_reps = 2.5`
fails with the n_reps error and is indeed not a positive integer. -/
theorem c6_nreps_validation_witness :
    ((XInput.arr1 [some 1, some 2]).wellFormedB = true
        ∧ (XInput.arr1 [some 1, some 2]).assembleOk = true
        ∧ wtsOkB (.arr1 [some 1, some 2]) none = true)
    ∧ (((bootstrap_se (fun q : ℚ => q) (.arr1 [some 1, some 2]) none
          (.float (5 / 2)) 0 0).1 = .error .nRepsNotPosInt
        ↔ ¬(PyNum.isInt (.float (5 / 2)) = true ∧ 0 < PyNum.toZ (.float (5 / 2))))
      ∧ (okB (bootstrap_se (fun q : ℚ => q) (.arr1 [some 1, some 2]) none
          (.float (5 / 2)) 0 0).1 = true
        ↔ (PyNum.isInt (.float (5 / 2)) = true ∧ 0 < PyNum.toZ (.float (5 / 2))))) :=
  ⟨⟨by decide, by decide, by decide⟩,
    c6_nreps_validation (fun q : ℚ => q) (.arr1 [some 1, some 2]) none
      (.float (5 / 2)) 0 0 (by decide) (by decide) (by decide)⟩

/-- C9: when a resample's denominator is zero for some column,
`bootstrap_se` raises no error; the division yields NaN for that resample
mean, and the NaN propagates into the standard-deviation reduction, making
that column's standard error NaN. -/
theorem c9_zero_denominator_nan {R : Type} (sqrtF : ℚ → R) (x : XInput)
    (wts : Option WInput) (v : PyNum) (seed : ℤ) (st : ℕ)
    (hx : x.wellFormedB = true) (ha : x.assembleOk = true) (hw : wtsOkB x wts = true)
    (hvi : v.isInt = true) (hvp : 0 < v.toZ)
    (c r : ℕ) (col : List F) (frow : List ℕ)
    (hcol : x.mat2.transpose.get? c = some col)
    (hrow : ((multinomialRows x.pyLen v.toZ.toNat (seedState seed)).1).get? r = some frow)
    (hden : rowDen (wtsVec x wts) col frow = some 0) :
    okB (bootstrap_se sqrtF x wts v seed st).1 = true
    ∧ (colMeans (multinomialRows x.pyLen v.toZ.toNat (seedState seed)).1
        (wtsVec x wts) col).get? r = some none
    ∧ (seList sqrtF (multinomialRows x.pyLen v.toZ.toNat (seedState seed)).1
        (wtsVec x wts) x.mat2).get? c = some none := by
  have hmean : (colMeans (multinomialRows x.pyLen v.toZ.toNat (seedState seed)).1
      (wtsVec x wts) col).get? r = some none := by
    rw [colMeans, List.get?_map, hrow, Option.map_some', hden, fdiv_zero]
  refine ⟨bootstrap_se_ok sqrtF x wts v seed st (wtsOk_len hw) (wellFormed_ndim hx)
    (wtsOk_ndim hw) hvi hvp ha, hmean, ?_⟩
  rw [seList, List.get?_map, hcol, Option.map_some',
    npStd_eq_none_of_mem sqrtF (List.get?_mem hmean)]

/-- C9 witness: all-zero weights make every resample denominator zero; with
`x = [1, 2]` and `wts = [0, 0]` the call succeeds, the resample mean is NaN
and the standard error is NaN. -/
theorem c9_zero_denominator_nan_witness :
    ((XInput.arr1 [some 1, some 2]).wellFormedB = true
        ∧ (XInput.arr1 [some 1, some 2]).assembleOk = true
        ∧ wtsOkB (.arr1 [some 1, some 2]) (some (.w1 [some 0, some 0])) = true
        ∧ (XInput.arr1 [some 1, some 2]).mat2.transpose.get? 0 = some [some 1, some 2]
        ∧ ((multinomialRows (XInput.arr1 [some 1, some 2]).pyLen
            (PyNum.toZ (.int 1)).toNat (seedState 0)).1).get? 0 = some [1, 1]
        ∧ rowDen (wtsVec (.arr1 [some 1, some 2]) (some (.w1 [some 0, some 0])))
            [some 1, some 2] [1, 1] = some 0)
    ∧ (okB (bootstrap_se (fun q : ℚ => q) (.arr1 [some 1, some 2])
          (some (.w1 [some 0, some 0])) (.int 1) 0 0).1 = true
      ∧ (colMeans (multinomialRows (XInput.arr1 [some 1, some 2]).pyLen
            (PyNum.toZ (.int 1)).toNat (seedState 0)).1
          (wtsVec (.arr1 [some 1, some 2]) (some (.w1 [some 0, some 0])))
          [some 1, some 2]).get? 0 = some none
      ∧ (seList (fun q : ℚ => q) (multinomialRows (XInput.arr1 [some 1, some 2]).pyLen
            (PyNum.toZ (.int 1)).toNat (seedState 0)).1
          (wtsVec (.arr1 [some 1, some 2]) (some (.w1 [some 0, some 0])))
          (XInput.arr1 [some 1, some 2]).mat2).get? 0 = some none) :=
  ⟨⟨by decide, by decide, by decide, by decide, by decide,
      by norm_num [rowDen, wtsVec, present, fsum, fadd, fmul]⟩,
    c9_zero_denominator_nan (fun q : ℚ => q) (.arr1 [some 1, some 2])
      (some (.w1 [some 0, some 0])) (.int 1) 0 0 (by decide) (by decide) (by decide)
      (by decide) (by decide) 0 0 [some 1, some 2] [1, 1]
      (by decide) (by decide) (by norm_num [rowDen, wtsVec, present, fsum, fadd, fmul])⟩

/-- C4 (amended): for every valid input and every feature column containing
no missing values, the returned standard error of that column equals the
divide-by-n (population, ddof = 0) standard deviation, per the spec's own
formula `spec_std`, of the spec's per-resample weighted means `mean_r`
(`spec_col_means`); and the call succeeds. -/
theorem c4_se_is_divide_by_n_std {R : Type} (sqrtF : ℚ → R) (x : XInput)
    (wts : Option WInput) (v : PyNum) (seed : ℤ) (st : ℕ)
    (hx : x.wellFormedB = true) (ha : x.assembleOk = true) (hw : wtsOkB x wts = true)
    (hvi : v.isInt = true) (hvp : 0 < v.toZ)
    (c : ℕ) (col : List F)
    (hcol : x.mat2.transpose.get? c = some col)
    (hnm : col.all Option.isSome = true) :
    okB (bootstrap_se sqrtF x wts v seed st).1 = true
    ∧ (seList sqrtF (multinomialRows x.pyLen v.toZ.toNat (seedState seed)).1
        (wtsVec x wts) x.mat2).get? c
      = some (spec_std sqrtF (spec_col_means
          (multinomialRows x.pyLen v.toZ.toNat (seedState seed)).1 (wtsVec x wts) col)) := by
  refine ⟨bootstrap_se_ok sqrtF x wts v seed st (wtsOk_len hw) (wellFormed_ndim hx)
    (wtsOk_ndim hw) hvi hvp ha, ?_⟩
  rw [seList, List.get?_map, hcol, Option.map_some', npStd_eq_spec_std,
    colMeans_eq_spec_col_means _ _ hnm]

/-- C4 witness: for `x = [1, 2]` with unit weights and one replicate, the
returned standard error equals the spec's divide-by-n standard deviation of
the resample means. -/
theorem c4_se_is_divide_by_n_std_witness :
    ((XInput.arr1 [some 1, some 2]).wellFormedB = true
        ∧ (XInput.arr1 [some 1, some 2]).assembleOk = true
        ∧ wtsOkB (.arr1 [some 1, some 2]) none = true
        ∧ (XInput.arr1 [some 1, some 2]).mat2.transpose.get? 0 = some [some 1, some 2]
        ∧ ([some (1 : ℚ), some 2].all Option.isSome = true))
    ∧ (okB (bootstrap_se (fun q : ℚ => q) (.arr1 [some 1, some 2]) none
          (.int 1) 0 0).1 = true
      ∧ (seList (fun q : ℚ => q) (multinomialRows (XInput.arr1 [some 1, some 2]).pyLen
            (PyNum.toZ (.int 1)).toNat (seedState 0)).1
          (wtsVec (.arr1 [some 1, some 2]) none)
          (XInput.arr1 [some 1, some 2]).mat2).get? 0
        = some (spec_std (fun q : ℚ => q) (spec_col_means
            (multinomialRows (XInput.arr1 [some 1, some 2]).pyLen
              (PyNum.toZ (.int 1)).toNat (seedState 0)).1
            (wtsVec (.arr1 [some 1, some 2]) none) [some 1, some 2]))) :=
  ⟨⟨by decide, by decide, by decide, by decide, by decide⟩,
    c4_se_is_divide_by_n_std (fun q : ℚ => q) (.arr1 [some 1, some 2]) none
      (.int 1) 0 0 (by decide) (by decide) (by decide) (by decide) (by decide)
      0 [some 1, some 2] (by decide) (by decide)⟩

/-- C4 counterexample: with `x = [1, NaN, 3]`, unit weights, 2 replicates
and seed 2 (both drawn resamples include a present observation), the code's
returned standard error se[0] is NaN, while the divide-by-n standard
deviation of the spec's per-resample means is the finite value 1; so the
claim as stated is false on inputs with missing values. -/
theorem c4_counterexample :
    (seList (fun q : ℚ => q) (multinomialRows 3 2 (seedState 2)).1
        (wtsVec (.arr1 [some 1, none, some 3]) none)
        ((XInput.arr1 [some 1, none, some 3]).mat2)).get? 0 = some none
    ∧ spec_std (fun q : ℚ => q) (spec_col_means (multinomialRows 3 2 (seedState 2)).1
        (wtsVec (.arr1 [some 1, none, some 3]) none) [some 1, none, some 3]) = some 1
    ∧ (seList (fun q : ℚ => q) (multinomialRows 3 2 (seedState 2)).1
        (wtsVec (.arr1 [some 1, none, some 3]) none)
        ((XInput.arr1 [some 1, none, some 3]).mat2)).get? 0
      ≠ some (spec_std (fun q : ℚ => q) (spec_col_means (multinomialRows 3 2 (seedState 2)).1
          (wtsVec (.arr1 [some 1, none, some 3]) none) [some 1, none, some 3])) := by
  have hfreq : (multinomialRows 3 2 (seedState 2)).1 = [[2, 1, 0], [0, 1, 2]] := by decide
  have hA : (seList (fun q : ℚ => q) (multinomialRows 3 2 (seedState 2)).1
      (wtsVec (.arr1 [some 1, none, some 3]) none)
      ((XInput.arr1 [some 1, none, some 3]).mat2)).get? 0 = some none := by decide
  have hB : spec_std (fun q : ℚ => q) (spec_col_means (multinomialRows 3 2 (seedState 2)).1
      (wtsVec (.arr1 [some 1, none, some 3]) none) [some 1, none, some 3]) = some 1 := by
    rw [hfreq]
    norm_num [spec_std, spec_col_means, spec_mean, spec_num, spec_den, wtsVec,
      XInput.pyLen, List.replicate, present, fsum, fadd, fmul, fsub, fdiv]
  refine ⟨hA, hB, ?_⟩
  rw [hA, hB]
  simp

/-- C1: evaluation of the code at `x = [1, NaN, 3]` (a missing value in a
row of nonzero weight), 2 replicates, seed 2.  Every drawn resample includes
at least one non-missing observation (it draws observation 0 or 2 at least
once), yet the result is the all-NaN scalar: the numerator of line 76
multiplies the raw NaN into every resample sum (`0 * NaN = NaN`), instead of
excluding the missing row as the denominator of line 77 does. -/
theorem c1_missing_row_poisons_numerator :
    ((multinomialRows 3 2 (seedState 2)).1.all
        (fun frow => (frow.headD 0 + frow.getD 2 0) != 0)) = true
    ∧ (bootstrap_se (fun q : ℚ => q) (.arr1 [some 1, none, some 3]) none (.int 2) 2 0).1
      = .ok (.scalar none) := by
  decide

/-- C2: evaluation of the code at a plain Python list `x = [1, 2, 3]`: the
final assembly (line 84) accesses `x.ndim` on the original argument, which a
list does not have, so the call raises an AttributeError instead of
returning the scalar se[0]. -/
theorem c2_plain_list_raises_attr_error :
    (bootstrap_se (fun q : ℚ => q) (.list1 [some 1, some 2, some 3]) none (.int 2) 0 0).1
      = .error .attrNoNdim := by
  decide

end Bootstrap
